import Mathlib

/-!
Verification of the compliance-sdk rule evaluation and resource-fetching
engine against its natural-language specification.

The repository ships the test suites, API documentation and examples for the
scanner package and the composite fetcher; the implementation bodies
(`scanner.go`, `validation.go`, the composite fetcher) are modelled here from
the specification and from the behaviour fixed by the in-repository tests.
Each modelled definition carries a doc comment saying what is modelled.
-/

/-! ## String utilities

Executable substring primitives over `List Char`, used to state the
"error message contains marker" properties that the error of the validator
categorization is specified by.  All are structurally recursive so that
concrete instances evaluate by `decide`.
-/

/-- ASCII lower-casing of a single character (`A`..`Z` map to `a`..`z`). -/
def asciiLower (c : Char) : Char :=
  if 65 ≤ c.toNat ∧ c.toNat ≤ 90 then Char.ofNat (c.toNat + 32) else c

/-- ASCII lower-casing of a string. -/
def lowerStr (s : String) : String :=
  ⟨s.data.map asciiLower⟩

/-- Whether the character list `n` is a prefix of `h`. -/
def isPrefixL : List Char → List Char → Bool
  | [], _ => true
  | _ :: _, [] => false
  | a :: as, b :: bs => a == b && isPrefixL as bs

/-- Whether `n` occurs as a contiguous sublist of `h`. -/
def containsSub (n : List Char) : List Char → Bool
  | [] => isPrefixL n []
  | c :: t => isPrefixL n (c :: t) || containsSub n t

/-- Whether the string `n` occurs inside the string `h`. -/
def strContains (h n : String) : Bool :=
  containsSub n.data h.data

/-- Drop characters of `h` up to and including the first occurrence of `n`;
`none` when `n` does not occur. -/
def afterSub (n : List Char) : List Char → Option (List Char)
  | [] => if isPrefixL n [] then some ([].drop n.length) else none
  | c :: t =>
    if isPrefixL n (c :: t) then some ((c :: t).drop n.length)
    else afterSub n t

/-- Take characters until the first occurrence of the character `q`. -/
def takeUntilChar (q : Char) : List Char → List Char
  | [] => []
  | c :: t => if c == q then [] else c :: takeUntilChar q t

/-- A single-quote character, used when building CEL-style diagnostics. -/
def sqChar : Char := Char.ofNat 39

/-- A single-quote string, used when building CEL-style diagnostics. -/
def sqStr : String := ⟨[sqChar]⟩

/-! ## Data model

Direct translations of the declared types of the scanner package
(`docs/API.md`, spec section 3).
-/

/-- Input kinds supported by the SDK (`InputType` constants in `docs/API.md`). -/
inductive InputType
  | kubernetes
  | file
  | system
  | http
  | database
deriving DecidableEq, Repr

/-- The display name of an input type, as used inside error messages. -/
def InputType.typeName : InputType → String
  | .kubernetes => "kubernetes"
  | .file => "file"
  | .system => "system"
  | .http => "http"
  | .database => "database"

/-- Rule kinds (`RuleType` constants in `docs/API.md`). -/
inductive RuleType
  | cel
  | rego
  | jsonpath
  | custom
deriving DecidableEq, Repr

/-- Statuses of a check result (`CheckResultStatus` constants in `docs/API.md`). -/
inductive CheckResultStatus
  | pass
  | fail
  | error
  | notApplicable
deriving DecidableEq, Repr

/-- The serialized string value of a status, per `docs/API.md`. -/
def CheckResultStatus.toStr : CheckResultStatus → String
  | .pass => "PASS"
  | .fail => "FAIL"
  | .error => "ERROR"
  | .notApplicable => "NOT-APPLICABLE"

/-- Classification of a validation issue (spec section 3, `validation_test.go`). -/
inductive ValidationErrorType
  | synErr
  | undeclaredRef
  | typeErr
  | general
deriving DecidableEq, Repr

/-- Source location attached to a validation issue. -/
structure ValidationLocation where
  line : Nat
  column : Nat
deriving DecidableEq, Repr

/-- A classified validation issue (spec section 3). -/
structure ValidationIssue where
  type : ValidationErrorType
  message : String
  details : String
  location : Option ValidationLocation
deriving DecidableEq, Repr

/-- Aggregate result of validating a whole rule (spec section 3). -/
structure ValidationResult where
  valid : Bool
  issues : List ValidationIssue
  warnings : List String
deriving DecidableEq, Repr

/-- Values bound to input names: the JSON-like data fetched for a rule. -/
inductive Value
  | vint (i : Int)
  | vstr (s : String)
  | vbool (b : Bool)
  | vlist (xs : List Value)
  | vobj (fields : List (String × Value))

/-- Bindings map resolved input names to fetched data (spec glossary). -/
abbrev Bindings := List (String × Value)

/-- The self-validation of an input specification outcome: `none` means valid,
`some e` is the descriptive failure `e` (`InputSpec.Validate` in the API). -/
structure InputSpec where
  validateErr : Option String
deriving DecidableEq, Repr

/-- A typed, named resource request (the `Input` interface). -/
structure Input where
  name : String
  inputType : InputType
  spec : InputSpec
deriving DecidableEq, Repr

/-- A caller-supplied scalar variable (the `CelVariable` capability). -/
structure CelVariable where
  name : String
  namespaceStr : String
  value : String
deriving DecidableEq, Repr

/-- Open key-value metadata carried by a check result.
Modelled from the spec: the concrete `CheckResultMetadata` struct is not in
the sources; spec section 9 prescribes a generic string-keyed map for open
metadata, modelled here as an association list. -/
abbrev CheckResultMetadata := List (String × String)

/-- The uniform outcome record for one rule (spec section 3, `docs/API.md`). -/
structure CheckResult where
  id : String
  status : CheckResultStatus
  metadata : CheckResultMetadata
  warnings : List String
  errorMessage : String
deriving DecidableEq, Repr

/-- A CEL rule: identifier, declared inputs and a textual expression
(the `CelRule` interface). -/
structure CelRule where
  identifier : String
  inputs : List Input
  expression : String
deriving DecidableEq, Repr

/-- Scan configuration (`ScanConfig` in `docs/API.md`). -/
structure ScanConfig where
  rules : List CelRule
  vars : List CelVariable
  apiResourcePath : String
deriving DecidableEq, Repr

/-! ## Error categorization

Modelled from the spec: `RuleValidator.categorizeCompilationError`
(`validation.go`, not in the sources) classifies a compilation error
message by pattern, per spec section 4.4 step 3 and the expectations of
`TestCategorizeCompilationError` and `TestValidateCELExpressionSimple`
(`validation_test.go`): the undeclared-reference marker wins, then the
syntax markers (which include the CEL overload-mismatch message, since the
tests fix that CEL type mismatches are reported as syntax errors), then the
type-checking marker; anything else is general.
-/

/-- Extract the quoted identifier from a CEL undeclared-reference message,
for example the identifier `x` out of `undeclared reference to 'x'`. -/
def extractIdent (msg : String) : String :=
  match afterSub ("undeclared reference to ".data ++ [sqChar]) msg.data with
  | some rest => ⟨takeUntilChar sqChar rest⟩
  | none => ""

/-- Interpret a list-of-characters digit run as a number, if nonempty. -/
def digitsToNat? (cs : List Char) : Option Nat :=
  match cs with
  | [] => none
  | _ => some (cs.foldl (fun acc c => acc * 10 + (c.toNat - 48)) 0)

/-- Extract `line:column` following the CEL `<input>:` position annotation;
absence of location is tolerated (spec section 4.4 step 3). -/
def extractLocation (msg : String) : Option ValidationLocation :=
  match afterSub "<input>:".data msg.data with
  | none => none
  | some rest =>
    let lineDigits := rest.takeWhile Char.isDigit
    let rest2 := rest.drop lineDigits.length
    match rest2 with
    | c :: rest3 =>
      if c == ':' then
        let colDigits := rest3.takeWhile Char.isDigit
        match digitsToNat? lineDigits, digitsToNat? colDigits with
        | some l, some col => some ⟨l, col⟩
        | _, _ => none
      else none
    | [] => none

/-- Modelled from the spec: classification of one compilation error message
(spec section 4.4 step 3; behaviour fixed by `TestCategorizeCompilationError`). -/
def categorizeCompilationError (expression errorMsg : String) : ValidationIssue :=
  let low := lowerStr errorMsg
  let _ := expression
  if strContains low "undeclared reference" then
    { type := .undeclaredRef
      message := "Undeclared variable or reference: " ++ extractIdent errorMsg
      details := errorMsg
      location := extractLocation errorMsg }
  else if strContains low "syntax error" || strContains low "no matching overload" then
    { type := .synErr
      message := "Syntax error in CEL expression"
      details := errorMsg
      location := extractLocation errorMsg }
  else if strContains low "type check" then
    { type := .typeErr
      message := "Type error in CEL expression"
      details := errorMsg
      location := extractLocation errorMsg }
  else
    { type := .general
      message := "CEL compilation error: " ++ errorMsg
      details := errorMsg
      location := extractLocation errorMsg }

/-! ## CEL expression frontend

Modelled from the spec: the validator (spec section 4.4) builds a type
environment binding every declared input name to a dynamically-typed
variable plus the `parseJSON`/`parseYAML` helper functions, then parses and
type-checks the expression, collecting CEL-style error messages.  The
parse/check step is performed in the Go code by the external cel-go
library (not part of this repository); it is modelled here for the operator
subset exercised by the scenarios of the specification, producing the message
shapes the in-repository tests fix (`undeclared reference to ...`,
`Syntax error: ...`, `found no matching overload ...`).
-/

/-- Tokens of the modelled CEL subset. -/
inductive Tok
  | tint (n : Nat)
  | tstr (s : String)
  | tid (s : String)
  | teq
  | tgt
  | tplus
  | tstar
  | tamp
  | tdot
  | tlp
  | trp
  | tcomma
deriving DecidableEq, Repr

/-- Characters allowed inside an identifier. -/
def identChar (c : Char) : Bool := c.isAlpha || c.isDigit || c == '_'

/-- Read a digit run as a number. -/
def digitsVal (cs : List Char) : Nat :=
  cs.foldl (fun a d => a * 10 + (d.toNat - 48)) 0

/-- CEL-style syntax diagnostic. -/
def synErrMsg (what : String) : String :=
  "ERROR: <input>:1:1: Syntax error: " ++ what

/-- Fuel-indexed tokenizer for the modelled CEL subset. -/
def tokenizeAux : Nat → List Char → Except String (List Tok)
  | 0, _ => .error (synErrMsg "token limit reached")
  | _ + 1, [] => .ok []
  | fuel + 1, c :: cs =>
    if c == ' ' || c == '\t' || c == '\n' || c == '\r' then
      tokenizeAux fuel cs
    else if c.isDigit then
      let ds := (c :: cs).takeWhile Char.isDigit
      (tokenizeAux fuel ((c :: cs).drop ds.length)).map
        (fun ts => Tok.tint (digitsVal ds) :: ts)
    else if c.isAlpha || c == '_' then
      let ds := (c :: cs).takeWhile identChar
      (tokenizeAux fuel ((c :: cs).drop ds.length)).map
        (fun ts => Tok.tid ⟨ds⟩ :: ts)
    else if c == '"' then
      let body := cs.takeWhile (fun x => !(x == '"'))
      match cs.drop body.length with
      | _ :: rest2 => (tokenizeAux fuel rest2).map (fun ts => Tok.tstr ⟨body⟩ :: ts)
      | [] => .error (synErrMsg "unterminated string literal")
    else if c == sqChar then
      let body := cs.takeWhile (fun x => !(x == sqChar))
      match cs.drop body.length with
      | _ :: rest2 => (tokenizeAux fuel rest2).map (fun ts => Tok.tstr ⟨body⟩ :: ts)
      | [] => .error (synErrMsg "unterminated string literal")
    else if c == '=' then
      match cs with
      | '=' :: rest => (tokenizeAux fuel rest).map (fun ts => Tok.teq :: ts)
      | _ => .error (synErrMsg "mismatched input =")
    else if c == '&' then
      match cs with
      | '&' :: rest => (tokenizeAux fuel rest).map (fun ts => Tok.tamp :: ts)
      | _ => .error (synErrMsg "mismatched input &")
    else if c == '>' then
      (tokenizeAux fuel cs).map (fun ts => Tok.tgt :: ts)
    else if c == '+' then
      (tokenizeAux fuel cs).map (fun ts => Tok.tplus :: ts)
    else if c == '*' then
      (tokenizeAux fuel cs).map (fun ts => Tok.tstar :: ts)
    else if c == '.' then
      (tokenizeAux fuel cs).map (fun ts => Tok.tdot :: ts)
    else if c == '(' then
      (tokenizeAux fuel cs).map (fun ts => Tok.tlp :: ts)
    else if c == ')' then
      (tokenizeAux fuel cs).map (fun ts => Tok.trp :: ts)
    else if c == ',' then
      (tokenizeAux fuel cs).map (fun ts => Tok.tcomma :: ts)
    else
      .error (synErrMsg "token recognition error")

/-- Tokenize a CEL expression string. -/
def tokenize (s : String) : Except String (List Tok) :=
  tokenizeAux (s.data.length + 1) s.data

/-- Abstract syntax of the modelled CEL subset. -/
inductive CelExpr
  | litInt (n : Nat)
  | litStr (s : String)
  | litBool (b : Bool)
  | idt (name : String)
  | sel (e : CelExpr) (field : String)
  | callFn (fn : String) (args : List CelExpr)
  | callM (e : CelExpr) (m : String) (args : List CelExpr)
  | addE (a b : CelExpr)
  | mulE (a b : CelExpr)
  | eqE (a b : CelExpr)
  | gtE (a b : CelExpr)
  | andE (a b : CelExpr)
deriving Repr

mutual

/-- Parse a conjunction, the lowest-precedence level of the subset. -/
def parseAnd : Nat → List Tok → Except String (CelExpr × List Tok)
  | 0, _ => .error (synErrMsg "expression nesting limit reached")
  | fuel + 1, toks => do
    let (a, rest) ← parseRel fuel toks
    parseAndL fuel a rest

/-- Left-fold further `&&` operands onto an already-parsed expression. -/
def parseAndL : Nat → CelExpr → List Tok → Except String (CelExpr × List Tok)
  | 0, _, _ => .error (synErrMsg "expression nesting limit reached")
  | fuel + 1, a, toks =>
    match toks with
    | Tok.tamp :: rest => do
      let (b, rest2) ← parseRel fuel rest
      parseAndL fuel (CelExpr.andE a b) rest2
    | _ => .ok (a, toks)

/-- Parse a relational expression (`==`, `>`). -/
def parseRel : Nat → List Tok → Except String (CelExpr × List Tok)
  | 0, _ => .error (synErrMsg "expression nesting limit reached")
  | fuel + 1, toks => do
    let (a, rest) ← parseAdd fuel toks
    parseRelL fuel a rest

/-- Left-fold further relational operands onto an already-parsed expression. -/
def parseRelL : Nat → CelExpr → List Tok → Except String (CelExpr × List Tok)
  | 0, _, _ => .error (synErrMsg "expression nesting limit reached")
  | fuel + 1, a, toks =>
    match toks with
    | Tok.teq :: rest => do
      let (b, rest2) ← parseAdd fuel rest
      parseRelL fuel (CelExpr.eqE a b) rest2
    | Tok.tgt :: rest => do
      let (b, rest2) ← parseAdd fuel rest
      parseRelL fuel (CelExpr.gtE a b) rest2
    | _ => .ok (a, toks)

/-- Parse an additive expression. -/
def parseAdd : Nat → List Tok → Except String (CelExpr × List Tok)
  | 0, _ => .error (synErrMsg "expression nesting limit reached")
  | fuel + 1, toks => do
    let (a, rest) ← parseMul fuel toks
    parseAddL fuel a rest

/-- Left-fold further `+` operands onto an already-parsed expression. -/
def parseAddL : Nat → CelExpr → List Tok → Except String (CelExpr × List Tok)
  | 0, _, _ => .error (synErrMsg "expression nesting limit reached")
  | fuel + 1, a, toks =>
    match toks with
    | Tok.tplus :: rest => do
      let (b, rest2) ← parseMul fuel rest
      parseAddL fuel (CelExpr.addE a b) rest2
    | _ => .ok (a, toks)

/-- Parse a multiplicative expression. -/
def parseMul : Nat → List Tok → Except String (CelExpr × List Tok)
  | 0, _ => .error (synErrMsg "expression nesting limit reached")
  | fuel + 1, toks => do
    let (a, rest) ← parseMember fuel toks
    parseMulL fuel a rest

/-- Left-fold further `*` operands onto an already-parsed expression. -/
def parseMulL : Nat → CelExpr → List Tok → Except String (CelExpr × List Tok)
  | 0, _, _ => .error (synErrMsg "expression nesting limit reached")
  | fuel + 1, a, toks =>
    match toks with
    | Tok.tstar :: rest => do
      let (b, rest2) ← parseMember fuel rest
      parseMulL fuel (CelExpr.mulE a b) rest2
    | _ => .ok (a, toks)

/-- Parse a primary expression followed by member selections and calls. -/
def parseMember : Nat → List Tok → Except String (CelExpr × List Tok)
  | 0, _ => .error (synErrMsg "expression nesting limit reached")
  | fuel + 1, toks => do
    let (a, rest) ← parsePrimary fuel toks
    parseMemberL fuel a rest

/-- Left-fold member selections and method calls onto a parsed expression. -/
def parseMemberL : Nat → CelExpr → List Tok → Except String (CelExpr × List Tok)
  | 0, _, _ => .error (synErrMsg "expression nesting limit reached")
  | fuel + 1, a, toks =>
    match toks with
    | Tok.tdot :: Tok.tid m :: Tok.tlp :: rest => do
      let (args, rest2) ← parseArgs fuel rest
      parseMemberL fuel (CelExpr.callM a m args) rest2
    | Tok.tdot :: Tok.tid m :: rest =>
      parseMemberL fuel (CelExpr.sel a m) rest
    | Tok.tdot :: _ => .error (synErrMsg "mismatched input .")
    | _ => .ok (a, toks)

/-- Parse the argument list following an already-consumed open parenthesis. -/
def parseArgs : Nat → List Tok → Except String (List CelExpr × List Tok)
  | 0, _ => .error (synErrMsg "expression nesting limit reached")
  | fuel + 1, toks =>
    match toks with
    | Tok.trp :: rest => .ok ([], rest)
    | _ => do
      let (a, rest) ← parseAnd fuel toks
      parseArgsL fuel [a] rest

/-- Parse the remaining comma-separated arguments of a call. -/
def parseArgsL : Nat → List CelExpr → List Tok → Except String (List CelExpr × List Tok)
  | 0, _, _ => .error (synErrMsg "expression nesting limit reached")
  | fuel + 1, acc, toks =>
    match toks with
    | Tok.trp :: rest => .ok (acc, rest)
    | Tok.tcomma :: rest => do
      let (a, rest2) ← parseAnd fuel rest
      parseArgsL fuel (acc ++ [a]) rest2
    | _ => .error (synErrMsg "mismatched input in argument list")

/-- Parse a literal, identifier, call or parenthesised expression. -/
def parsePrimary : Nat → List Tok → Except String (CelExpr × List Tok)
  | 0, _ => .error (synErrMsg "expression nesting limit reached")
  | fuel + 1, toks =>
    match toks with
    | Tok.tint n :: rest => .ok (CelExpr.litInt n, rest)
    | Tok.tstr s :: rest => .ok (CelExpr.litStr s, rest)
    | Tok.tid "true" :: rest => .ok (CelExpr.litBool true, rest)
    | Tok.tid "false" :: rest => .ok (CelExpr.litBool false, rest)
    | Tok.tid x :: Tok.tlp :: rest => do
      let (args, rest2) ← parseArgs fuel rest
      .ok (CelExpr.callFn x args, rest2)
    | Tok.tid x :: rest => .ok (CelExpr.idt x, rest)
    | Tok.tlp :: rest => do
      let (a, rest2) ← parseAnd fuel rest
      match rest2 with
      | Tok.trp :: rest3 => .ok (a, rest3)
      | _ => .error (synErrMsg "mismatched input, expecting closing parenthesis")
    | _ => .error (synErrMsg "mismatched input, expecting expression")

end

/-- Parse a whole token stream as one expression. -/
def parseTop (toks : List Tok) : Except String CelExpr := do
  let (a, rest) ← parseAnd (toks.length * 2 + 4) toks
  match rest with
  | [] => .ok a
  | _ => .error (synErrMsg "mismatched input after expression")

/-- Types of the modelled CEL checker. -/
inductive CelType
  | tInt
  | tStr
  | tBool
  | tDyn
deriving DecidableEq, Repr

/-- The display name of a CEL type inside diagnostics. -/
def CelType.disp : CelType → String
  | .tInt => "int"
  | .tStr => "string"
  | .tBool => "bool"
  | .tDyn => "dyn"

/-- The helper functions every validation environment declares
(spec section 4.4 step 1). -/
def celHelperFns : List String := ["parseJSON", "parseYAML"]

/-- CEL-style undeclared-reference diagnostic. -/
def undeclMsg (x : String) : String :=
  "ERROR: <input>:1:1: undeclared reference to " ++ sqStr ++ x ++ sqStr ++
    " (in container " ++ sqStr ++ sqStr ++ ")"

/-- CEL-style overload-mismatch diagnostic. -/
def overloadMsg (op : String) (t1 t2 : CelType) : String :=
  "ERROR: <input>:1:3: found no matching overload for " ++ sqStr ++ op ++ sqStr ++
    " applied to " ++ sqStr ++ "(" ++ t1.disp ++ ", " ++ t2.disp ++ ")" ++ sqStr

/-- Result type of `_+_` on two operand types. -/
def addOverload (t1 t2 : CelType) : CelType × List String :=
  if t1 == .tDyn || t2 == .tDyn then (.tDyn, [])
  else if t1 == .tInt && t2 == .tInt then (.tInt, [])
  else if t1 == .tStr && t2 == .tStr then (.tStr, [])
  else (.tDyn, [overloadMsg "_+_" t1 t2])

/-- Result type of `_*_` on two operand types. -/
def mulOverload (t1 t2 : CelType) : CelType × List String :=
  if t1 == .tDyn || t2 == .tDyn then (.tDyn, [])
  else if t1 == .tInt && t2 == .tInt then (.tInt, [])
  else (.tDyn, [overloadMsg "_*_" t1 t2])

/-- Result type of `_==_` on two operand types. -/
def eqOverload (t1 t2 : CelType) : CelType × List String :=
  if t1 == .tDyn || t2 == .tDyn || t1 == t2 then (.tBool, [])
  else (.tBool, [overloadMsg "_==_" t1 t2])

/-- Result type of `_>_` on two operand types. -/
def gtOverload (t1 t2 : CelType) : CelType × List String :=
  if t1 == .tDyn || t2 == .tDyn then (.tBool, [])
  else if t1 == t2 && !(t1 == .tBool) then (.tBool, [])
  else (.tBool, [overloadMsg "_>_" t1 t2])

/-- Result type of `_&&_` on two operand types. -/
def andOverload (t1 t2 : CelType) : CelType × List String :=
  if (t1 == .tDyn || t1 == .tBool) && (t2 == .tDyn || t2 == .tBool) then (.tBool, [])
  else (.tBool, [overloadMsg "_&&_" t1 t2])

mutual

/-- Fuel-indexed type checker: infers a type for the expression against the
declared names and accumulates CEL-style error messages. -/
def checkE : Nat → List String → CelExpr → CelType × List String
  | 0, _, _ => (.tDyn, [synErrMsg "expression nesting limit reached"])
  | fuel + 1, env, e =>
    match e with
    | .litInt _ => (.tInt, [])
    | .litStr _ => (.tStr, [])
    | .litBool _ => (.tBool, [])
    | .idt x =>
      if env.contains x then (.tDyn, []) else (.tDyn, [undeclMsg x])
    | .sel e1 _ =>
      let (t, errs) := checkE fuel env e1
      if t == .tDyn then (.tDyn, errs)
      else (.tDyn, errs ++ [overloadMsg "_._" t .tStr])
    | .callFn fn args =>
      let argErrs := checkArgs fuel env args
      if celHelperFns.contains fn then (.tDyn, argErrs)
      else (.tDyn, argErrs ++ [undeclMsg fn])
    | .callM e1 _ args =>
      let (_, errs) := checkE fuel env e1
      let argErrs := checkArgs fuel env args
      (.tDyn, errs ++ argErrs)
    | .addE a b =>
      let (t1, e1) := checkE fuel env a
      let (t2, e2) := checkE fuel env b
      let (t, e3) := addOverload t1 t2
      (t, e1 ++ e2 ++ e3)
    | .mulE a b =>
      let (t1, e1) := checkE fuel env a
      let (t2, e2) := checkE fuel env b
      let (t, e3) := mulOverload t1 t2
      (t, e1 ++ e2 ++ e3)
    | .eqE a b =>
      let (t1, e1) := checkE fuel env a
      let (t2, e2) := checkE fuel env b
      let (t, e3) := eqOverload t1 t2
      (t, e1 ++ e2 ++ e3)
    | .gtE a b =>
      let (t1, e1) := checkE fuel env a
      let (t2, e2) := checkE fuel env b
      let (t, e3) := gtOverload t1 t2
      (t, e1 ++ e2 ++ e3)
    | .andE a b =>
      let (t1, e1) := checkE fuel env a
      let (t2, e2) := checkE fuel env b
      let (t, e3) := andOverload t1 t2
      (t, e1 ++ e2 ++ e3)

/-- Check every argument of a call, accumulating the errors. -/
def checkArgs : Nat → List String → List CelExpr → List String
  | 0, _, _ => [synErrMsg "expression nesting limit reached"]
  | _ + 1, _, [] => []
  | fuel + 1, env, a :: rest =>
    (checkE fuel env a).2 ++ checkArgs fuel env rest

end

/-- Modelled from the spec: the CEL compile step of the validator
(spec section 4.4 steps 1-2): build the environment from the declared
names plus the helper functions, parse, and type-check; returns the list
of CEL error messages (empty means the expression compiled). -/
def celCompile (declared : List String) (expression : String) : List String :=
  match tokenize expression with
  | .error e => [e]
  | .ok toks =>
    match parseTop toks with
    | .error e => [e]
    | .ok ast => (checkE (expression.data.length + 1) declared ast).2

/-- Modelled from the spec: `RuleValidator.ValidateCELExpression`
(`validation.go`, not in the sources): compile against the declared names
and classify every resulting error message (spec section 4.4 step 3). -/
def ValidateCELExpression (expression : String) (declarations : List String) :
    List ValidationIssue :=
  (celCompile declarations expression).map (categorizeCompilationError expression)

/-- Modelled from the spec: `RuleValidator.ValidateCELExpressionSimple`
(`validation.go`, not in the sources): validation with no declared inputs. -/
def ValidateCELExpressionSimple (expression : String) : List ValidationIssue :=
  ValidateCELExpression expression []

/-! ## Expression evaluation

Modelled from the spec: orchestrator step 3 (spec section 4.5) runs the
compiled predicate against the fetched bindings; modelled for the operator
subset of the frontend (helper-function and macro evaluation are outside
the subset and surface as evaluation errors, which no claim exercises).
-/

/-- Association-list lookup used for bindings and object fields. -/
def lookupAssoc {α : Type} : List (String × α) → String → Option α
  | [], _ => none
  | (k, v) :: rest, x => if k == x then some v else lookupAssoc rest x

mutual

/-- Fuel-indexed structural equality on fetched values. -/
def valueBeq : Nat → Value → Value → Bool
  | 0, _, _ => false
  | fuel + 1, a, b =>
    match a, b with
    | .vint x, .vint y => x == y
    | .vstr x, .vstr y => x == y
    | .vbool x, .vbool y => x == y
    | .vlist xs, .vlist ys => valueListBeq fuel xs ys
    | .vobj xs, .vobj ys => valueFieldsBeq fuel xs ys
    | _, _ => false

/-- Fuel-indexed equality on value lists. -/
def valueListBeq : Nat → List Value → List Value → Bool
  | 0, _, _ => false
  | _ + 1, [], [] => true
  | fuel + 1, x :: xs, y :: ys => valueBeq fuel x y && valueListBeq fuel xs ys
  | _ + 1, _, _ => false

/-- Fuel-indexed equality on object field lists. -/
def valueFieldsBeq : Nat → List (String × Value) → List (String × Value) → Bool
  | 0, _, _ => false
  | _ + 1, [], [] => true
  | fuel + 1, (k1, v1) :: xs, (k2, v2) :: ys =>
    k1 == k2 && valueBeq fuel v1 v2 && valueFieldsBeq fuel xs ys
  | _ + 1, _, _ => false

end

mutual

/-- Fuel-indexed evaluator for the modelled CEL subset. -/
def evalE : Nat → Bindings → CelExpr → Except String Value
  | 0, _, _ => .error "evaluation limit reached"
  | fuel + 1, env, e =>
    match e with
    | .litInt n => .ok (.vint n)
    | .litStr s => .ok (.vstr s)
    | .litBool b => .ok (.vbool b)
    | .idt x =>
      match lookupAssoc env x with
      | some v => .ok v
      | none => .error ("no such attribute: " ++ x)
    | .sel e1 f => do
      let v ← evalE fuel env e1
      match v with
      | .vobj fs =>
        match lookupAssoc fs f with
        | some w => .ok w
        | none => .error ("no such key: " ++ f)
      | _ => .error ("type does not support field selection: " ++ f)
    | .callM e1 m args =>
      if m == "size" && args.isEmpty then do
        let v ← evalE fuel env e1
        match v with
        | .vlist xs => .ok (.vint xs.length)
        | .vstr s => .ok (.vint s.length)
        | _ => .error "size applied to unsupported value"
      else .error ("method outside modelled subset: " ++ m)
    | .callFn fn _ => .error ("function outside modelled subset: " ++ fn)
    | .addE a b => do
      let va ← evalE fuel env a
      let vb ← evalE fuel env b
      match va, vb with
      | .vint x, .vint y => .ok (.vint (x + y))
      | .vstr x, .vstr y => .ok (.vstr (x ++ y))
      | _, _ => .error "no matching overload for addition"
    | .mulE a b => do
      let va ← evalE fuel env a
      let vb ← evalE fuel env b
      match va, vb with
      | .vint x, .vint y => .ok (.vint (x * y))
      | _, _ => .error "no matching overload for multiplication"
    | .eqE a b => do
      let va ← evalE fuel env a
      let vb ← evalE fuel env b
      .ok (.vbool (valueBeq (fuel + 1) va vb))
    | .gtE a b => do
      let va ← evalE fuel env a
      let vb ← evalE fuel env b
      match va, vb with
      | .vint x, .vint y => .ok (.vbool (y < x))
      | _, _ => .error "no matching overload for comparison"
    | .andE a b => do
      let va ← evalE fuel env a
      match va with
      | .vbool false => .ok (.vbool false)
      | .vbool true => do
        let vb ← evalE fuel env b
        match vb with
        | .vbool y => .ok (.vbool y)
        | _ => .error "no matching overload for conjunction"
      | _ => .error "no matching overload for conjunction"

end

/-- Tokenize, parse and evaluate an expression against an environment. -/
def evalExpression (env : Bindings) (expression : String) : Except String Value :=
  match tokenize expression with
  | .error e => .error e
  | .ok toks =>
    match parseTop toks with
    | .error e => .error e
    | .ok ast => evalE (expression.data.length + 1) env ast

/-! ## Scan orchestrator

Modelled from the spec: `Scanner.Scan` (`scanner.go`, not in the sources).
Spec sections 4.5 and 7: per rule, resolve inputs, compile, evaluate, and
map every outcome to one `CheckResult`; only nil configuration or an empty
rule list abort the scan, before any rule is processed.  The resource
fetcher collaborator is abstracted as a function from a rule to fetched
bindings or a fetch error (the `ResourceFetcher.FetchResources` contract).
-/

/-- The per-rule state machine of the orchestrator (spec section 4.5):
fetch, then compile, then evaluate, with every failure absorbed into a
rule-scoped result. -/
def evaluateRule (fetch : CelRule → Except String Bindings)
    (vars : List CelVariable) (rule : CelRule) : CheckResult :=
  match fetch rule with
  | .error msg =>
    { id := rule.identifier
      status := .error
      metadata := []
      warnings := []
      errorMessage := "failed to fetch resources: " ++ msg }
  | .ok bindings =>
    let declared := rule.inputs.map Input.name ++ vars.map CelVariable.name
    let issues := ValidateCELExpression rule.expression declared
    if issues.isEmpty then
      let env := bindings ++ vars.map (fun v => (v.name, Value.vstr v.value))
      match evalExpression env rule.expression with
      | .ok (Value.vbool true) =>
        { id := rule.identifier, status := .pass, metadata := []
          warnings := [], errorMessage := "" }
      | .ok (Value.vbool false) =>
        { id := rule.identifier, status := .fail, metadata := []
          warnings := [], errorMessage := "" }
      | .ok _ =>
        { id := rule.identifier, status := .error, metadata := []
          warnings := [], errorMessage := "expression did not evaluate to a boolean" }
      | .error msg =>
        { id := rule.identifier, status := .error, metadata := []
          warnings := [], errorMessage := "evaluation error: " ++ msg }
    else
      { id := rule.identifier
        status := .error
        metadata := []
        warnings := issues.map ValidationIssue.message
        errorMessage := "CEL expression compilation failed" }

/-- Modelled from the spec: `Scanner.Scan` (`scanner.go`, not in the
sources).  A nil configuration or an empty rule list is a scan-level
error with no results; otherwise every rule yields exactly one result. -/
def Scanner.Scan (fetch : CelRule → Except String Bindings)
    (config : Option ScanConfig) : Except String (List CheckResult) :=
  match config with
  | none => .error "invalid scan configuration"
  | some cfg =>
    match cfg.rules with
    | [] => .error "no rules to scan"
    | _ :: _ => .ok (cfg.rules.map (evaluateRule fetch cfg.vars))

/-! ## Composite fetcher / dispatcher

Modelled from the spec: the `CompositeFetcher` of the fetchers package
(implementation not in the sources; behaviour fixed by spec sections 4.2
and 7 and by the fetchers package test suite).  A collaborator fetcher is
its fetch contract: a binding-producing function plus a supported-kind
predicate (spec section 6).
-/

/-- The fetcher capability consumed by the dispatcher (`InputFetcher`). -/
structure InputFetcher where
  fetchInputs : List Input → List CelVariable → Except String Bindings
  supportsInputType : InputType → Bool

/-- The dispatcher: explicitly registered custom fetchers plus at most one
built-in fetcher per well-known kind (spec section 3). -/
structure CompositeFetcher where
  customFetchers : List (InputType × InputFetcher)
  kubernetesFetcher : Option InputFetcher
  filesystemFetcher : Option InputFetcher

/-- An empty dispatcher (`NewCompositeFetcher`). -/
def NewCompositeFetcher : CompositeFetcher :=
  { customFetchers := [], kubernetesFetcher := none, filesystemFetcher := none }

/-- First-match lookup in the custom registration list.  Registration
prepends, so the most recent registration for a kind wins (last write
wins, spec section 4.2). -/
def lookupCustom : List (InputType × InputFetcher) → InputType → Option InputFetcher
  | [], _ => none
  | (k, f) :: rest, t => if k == t then some f else lookupCustom rest t

/-- The operation `RegisterCustomFetcher`: store or overwrite the custom fetcher for a kind. -/
def CompositeFetcher.RegisterCustomFetcher (c : CompositeFetcher)
    (t : InputType) (f : InputFetcher) : CompositeFetcher :=
  { c with customFetchers := (t, f) :: c.customFetchers }

/-- The operation `SetKubernetesFetcher`: configure the built-in cluster fetcher. -/
def CompositeFetcher.SetKubernetesFetcher (c : CompositeFetcher)
    (f : InputFetcher) : CompositeFetcher :=
  { c with kubernetesFetcher := some f }

/-- The operation `SetFilesystemFetcher`: configure the built-in filesystem fetcher. -/
def CompositeFetcher.SetFilesystemFetcher (c : CompositeFetcher)
    (f : InputFetcher) : CompositeFetcher :=
  { c with filesystemFetcher := some f }

/-- The built-in fetcher configured for a well-known kind, if any. -/
def CompositeFetcher.builtinFetcher (c : CompositeFetcher) :
    InputType → Option InputFetcher
  | .kubernetes => c.kubernetesFetcher
  | .file => c.filesystemFetcher
  | _ => none

/-- Modelled from the spec: `CompositeFetcher.getFetcherForType`
(fetchers package, not in the sources): custom registration takes
precedence, then the built-in fetcher for a well-known kind, else none
(spec section 4.2, `TestCompositeFetcher_GetFetcherForType`). -/
def CompositeFetcher.getFetcherForType (c : CompositeFetcher)
    (t : InputType) : Option InputFetcher :=
  match lookupCustom c.customFetchers t with
  | some f => some f
  | none => c.builtinFetcher t

/-- The operation `SupportsInputType`: true iff some fetcher resolves the kind. -/
def CompositeFetcher.SupportsInputType (c : CompositeFetcher) (t : InputType) : Bool :=
  (c.getFetcherForType t).isSome

/-- Modelled from the spec: `CompositeFetcher.ValidateInputs` (fetchers
package, not in the sources): per input, fail fast with `unsupported input
type` when no fetcher resolves, and propagate the validation error of the input spec itself
error as `invalid input spec` (spec section 4.2,
`TestCompositeFetcher_ValidateInputs`).  `none` means all inputs passed. -/
def CompositeFetcher.ValidateInputs (c : CompositeFetcher) :
    List Input → Option String
  | [] => none
  | i :: rest =>
    match c.getFetcherForType i.inputType with
    | none => some ("unsupported input type: " ++ i.inputType.typeName)
    | some _ =>
      match i.spec.validateErr with
      | some e => some ("invalid input spec for input " ++ i.name ++ ": " ++ e)
      | none => c.ValidateInputs rest

/-- The input kinds present in a list, in first-occurrence order. -/
def distinctTypesAux (acc : List InputType) : List Input → List InputType
  | [] => acc
  | i :: rest =>
    if acc.contains i.inputType then distinctTypesAux acc rest
    else distinctTypesAux (acc ++ [i.inputType]) rest

/-- The kind partition keys of an input list (spec section 4.4 operation
`FetchInputs`: partitions inputs by resolved fetcher). -/
def distinctTypes (inputs : List Input) : List InputType :=
  distinctTypesAux [] inputs

/-- The inputs a fetcher for kind `t` owns. -/
def inputsOfType (t : InputType) (inputs : List Input) : List Input :=
  inputs.filter (fun i => i.inputType == t)

/-- Fetch each kind partition in order, aborting on the first fetcher
error and merging the returned binding maps into one flat map. -/
def fetchGroups (c : CompositeFetcher) (inputs : List Input)
    (vars : List CelVariable) : List InputType → Except String Bindings
  | [] => .ok []
  | t :: ts =>
    match c.getFetcherForType t with
    | none => .error ("no fetcher available for input type " ++ t.typeName)
    | some f =>
      match f.fetchInputs (inputsOfType t inputs) vars with
      | .error e => .error ("failed to fetch inputs for type " ++ t.typeName ++ ": " ++ e)
      | .ok m =>
        match fetchGroups c inputs vars ts with
        | .error e => .error e
        | .ok rest => .ok (m ++ rest)

/-- Modelled from the spec: `CompositeFetcher.FetchInputs` (fetchers
package, not in the sources): partition the inputs by kind, invoke each
resolved fetcher with only the inputs it owns, merge the binding maps;
the first fetcher error aborts the whole call with no partial bindings
(spec section 4.2, `TestCompositeFetcher_FetchInputs`). -/
def CompositeFetcher.FetchInputs (c : CompositeFetcher) (inputs : List Input)
    (vars : List CelVariable) : Except String Bindings :=
  fetchGroups c inputs vars (distinctTypes inputs)

/-- Modelled from the spec: `CompositeFetcher.FetchResources` (fetchers
package, not in the sources): pre-flight `ValidateInputs`, then
`FetchInputs`, for a whole rule (spec section 4.2). -/
def CompositeFetcher.FetchResources (c : CompositeFetcher) (rule : CelRule)
    (vars : List CelVariable) : Except String (Bindings × List String) :=
  match c.ValidateInputs rule.inputs with
  | some e => .error e
  | none => (c.FetchInputs rule.inputs vars).map (fun b => (b, []))

/-! ## Result persistence

Modelled from the spec: `SaveResults` (`scanner.go`, not in the sources)
serializes the result list as JSON with the field names of spec section 3
(`id`, `status`, `metadata`, `warnings`, `errorMessage`), per
`docs/API.md` struct tags and `TestSaveResults`.  The serialization is
modelled at the JSON-structure level; writing and re-reading the file is
faithful transport of the serialized value, so reading back yields
exactly the value `SaveResults` produced.
-/

/-- JSON values, the serialization target of `SaveResults`. -/
inductive Json
  | jnull
  | jbool (b : Bool)
  | jstr (s : String)
  | jarr (xs : List Json)
  | jobj (fields : List (String × Json))

/-- Deserialize a status string back to the status enumeration. -/
def statusFromString (s : String) : Option CheckResultStatus :=
  if s == "PASS" then some .pass
  else if s == "FAIL" then some .fail
  else if s == "ERROR" then some .error
  else if s == "NOT-APPLICABLE" then some .notApplicable
  else none

/-- Serialize one check result under the field names of the spec. -/
def encodeCheckResult (r : CheckResult) : Json :=
  .jobj
    [ ("id", .jstr r.id)
    , ("status", .jstr r.status.toStr)
    , ("metadata", .jobj (r.metadata.map (fun p => (p.1, Json.jstr p.2))))
    , ("warnings", .jarr (r.warnings.map Json.jstr))
    , ("errorMessage", .jstr r.errorMessage) ]

/-- Look up an object field by name (JSON object decoding is
order-insensitive, like `json.Unmarshal`). -/
def jsonField (fields : List (String × Json)) (k : String) : Option Json :=
  lookupAssoc fields k

/-- Decode a JSON array of strings. -/
def decodeStringList : List Json → Option (List String)
  | [] => some []
  | .jstr s :: rest => (decodeStringList rest).map (fun l => s :: l)
  | _ => none

/-- Decode a JSON object of string values into result metadata. -/
def decodeMetadata : List (String × Json) → Option CheckResultMetadata
  | [] => some []
  | (k, .jstr v) :: rest => (decodeMetadata rest).map (fun l => (k, v) :: l)
  | _ => none

/-- Decode one serialized check result. -/
def decodeCheckResult : Json → Option CheckResult
  | .jobj fields =>
    match jsonField fields "id", jsonField fields "status",
        jsonField fields "metadata", jsonField fields "warnings",
        jsonField fields "errorMessage" with
    | some (.jstr i), some (.jstr st), some (.jobj md), some (.jarr ws),
        some (.jstr em) =>
      match statusFromString st, decodeMetadata md, decodeStringList ws with
      | some s, some m, some w =>
        some { id := i, status := s, metadata := m, warnings := w, errorMessage := em }
      | _, _, _ => none
    | _, _, _, _, _ => none
  | _ => none

/-- Modelled from the spec: the serialized file content `SaveResults`
writes for a result list: an ordered JSON sequence of the records. -/
def SaveResults (results : List CheckResult) : Json :=
  .jarr (results.map encodeCheckResult)

/-- Decode a serialized sequence of check results. -/
def decodeResultList : List Json → Option (List CheckResult)
  | [] => some []
  | j :: rest =>
    match decodeCheckResult j, decodeResultList rest with
    | some r, some rs => some (r :: rs)
    | _, _ => none

/-- Deserialize the file content read back after `SaveResults`. -/
def LoadResults : Json → Option (List CheckResult)
  | .jarr xs => decodeResultList xs
  | _ => none

/-- The field names of a serialized object, in order. -/
def jsonFieldNames : Json → List String
  | .jobj fields => fields.map Prod.fst
  | _ => []

/-! ## Concrete fixtures

Sample rules, inputs and fetchers used by the concrete witness
theorems, mirroring the fixtures of the test suites.
-/

/-- A sample fetcher used by concrete witnesses: every rule fetches an
empty binding set successfully. -/
def fetchOkEmpty : CelRule → Except String Bindings := fun _ => .ok []

/-- A sample rule used by concrete witnesses. -/
def ruleSimple : CelRule :=
  { identifier := "r1", inputs := [], expression := "1 + 1 == 2" }

/-- A sample custom fetcher for file inputs, used by concrete witnesses
(the shape of the mocks in the fetchers package test suite). -/
def fileFetcherMock : InputFetcher :=
  { fetchInputs := fun _ _ => .ok [("config", Value.vstr "file data")]
    supportsInputType := fun t => t == InputType.file }

/-- A sample custom fetcher for system inputs, used by concrete witnesses. -/
def systemFetcherMock : InputFetcher :=
  { fetchInputs := fun _ _ => .ok [("nginx", Value.vstr "system data")]
    supportsInputType := fun t => t == InputType.system }

/-- A sample built-in filesystem fetcher, used by concrete witnesses. -/
def filesystemFetcherMock : InputFetcher :=
  { fetchInputs := fun _ _ => .ok [("testfile", Value.vstr "test content")]
    supportsInputType := fun t => t == InputType.file }

/-- A file-kind input used by concrete witnesses (Scenario E). -/
def inputConfigFile : Input :=
  { name := "config", inputType := .file, spec := { validateErr := none } }

/-- A system-kind input used by concrete witnesses (Scenario E). -/
def inputNginxSystem : Input :=
  { name := "nginx", inputType := .system, spec := { validateErr := none } }

/-- The Scenario E dispatcher: two custom fetchers registered for the
disjoint kinds file and system. -/
def dispatcherE : CompositeFetcher :=
  (NewCompositeFetcher.RegisterCustomFetcher InputType.file fileFetcherMock).RegisterCustomFetcher
    InputType.system systemFetcherMock

/-- A custom fetcher whose fetch always fails, used by concrete witnesses. -/
def failingFetcherMock : InputFetcher :=
  { fetchInputs := fun _ _ => .error "fetcher error"
    supportsInputType := fun t => t == InputType.file }

/-- An http input with a valid spec, used by concrete witnesses. -/
def inputHttp : Input :=
  { name := "unsupported", inputType := .http, spec := { validateErr := none } }

/-- An input with a failing spec, used by concrete witnesses. -/
def inputBadSpec : Input :=
  { name := "test", inputType := .file, spec := { validateErr := some "invalid spec" } }

/-- The Scenario C input: a kubernetes `pods` input with a valid spec. -/
def podsInput : Input :=
  { name := "pods", inputType := .kubernetes, spec := { validateErr := none } }

/-- The Scenario C rule: declares input `pods` but its expression
references the undeclared name `deployments`. -/
def badRule : CelRule :=
  { identifier := "bad-rule"
    inputs := [podsInput]
    expression := "deployments.items.size() > 0" }

/-! ## Helper lemmas -/

theorem statusFromString_toStr (s : CheckResultStatus) :
    statusFromString s.toStr = some s := by
  cases s <;> rfl

theorem decodeStringList_map (w : List String) :
    decodeStringList (w.map Json.jstr) = some w := by
  induction w with
  | nil => rfl
  | cons s rest ih => simp [decodeStringList, ih]

theorem decodeMetadata_map (m : CheckResultMetadata) :
    decodeMetadata (m.map (fun p => (p.1, Json.jstr p.2))) = some m := by
  induction m with
  | nil => rfl
  | cons p rest ih =>
    cases p
    simp [decodeMetadata, ih]

theorem decodeCheckResult_encode (r : CheckResult) :
    decodeCheckResult (encodeCheckResult r) = some r := by
  cases r with
  | mk i s m w em =>
    simp [encodeCheckResult, decodeCheckResult, jsonField, lookupAssoc,
      statusFromString_toStr, decodeStringList_map, decodeMetadata_map]

theorem decodeResultList_map (results : List CheckResult) :
    decodeResultList (results.map encodeCheckResult) = some results := by
  induction results with
  | nil => rfl
  | cons r rest ih => simp [decodeResultList, decodeCheckResult_encode, ih]

theorem isPrefixL_append_self (n r : List Char) : isPrefixL n (n ++ r) = true := by
  induction n with
  | nil => rfl
  | cons c t ih => simp [isPrefixL, ih]

theorem containsSub_of_front (n h : List Char) (hp : isPrefixL n h = true) :
    containsSub n h = true := by
  cases h with
  | nil => simpa [containsSub] using hp
  | cons c t => simp [containsSub, hp]

theorem containsSub_append_left (n a h : List Char)
    (hc : containsSub n h = true) : containsSub n (a ++ h) = true := by
  induction a with
  | nil => simpa using hc
  | cons c t ih => simp [containsSub, ih]

theorem containsSub_infix (a n b : List Char) :
    containsSub n (a ++ (n ++ b)) = true :=
  containsSub_append_left n a (n ++ b)
    (containsSub_of_front n (n ++ b) (isPrefixL_append_self n b))

theorem strContains_of_append (pre mid suf : String) :
    strContains (pre ++ mid ++ suf) mid = true := by
  have h : (pre ++ mid ++ suf).data = pre.data ++ (mid.data ++ suf.data) := by
    simp [String.data_append]
  simp only [strContains, h]
  exact containsSub_infix pre.data mid.data suf.data

theorem strContains_front (mid suf : String) :
    strContains (mid ++ suf) mid = true := by
  have h := strContains_of_append "" mid suf
  simpa using h

theorem strContains_suffix (pre mid : String) :
    strContains (pre ++ mid) mid = true := by
  have h := strContains_of_append pre mid ""
  simpa using h

theorem evaluateRule_id (fetch : CelRule → Except String Bindings)
    (vars : List CelVariable) (rule : CelRule) :
    (evaluateRule fetch vars rule).id = rule.identifier := by
  unfold evaluateRule
  cases fetch rule with
  | error msg => rfl
  | ok bindings =>
    dsimp only
    split
    · split <;> rfl
    · rfl

/-! ## Claim theorems -/

/-- C1: for every rule set submitted to `Scanner.Scan`, the returned result
list has exactly one `CheckResult` per rule, in order and carrying the
identifier of the rule, with no omissions or duplicates, even when the
fetch or compile of a rule fails (the fetcher is arbitrary); the only exception is a
scan-level precondition failure — nil configuration or no rules — in which
case no results are returned and an error is. -/
theorem scan_emits_one_result_per_rule
    (fetch : CelRule → Except String Bindings) (cfg : ScanConfig) :
    (cfg.rules ≠ [] →
      ∃ rs, Scanner.Scan fetch (some cfg) = Except.ok rs ∧
        rs.length = cfg.rules.length ∧
        rs.map CheckResult.id = cfg.rules.map CelRule.identifier)
    ∧ (cfg.rules = [] → ∃ e, Scanner.Scan fetch (some cfg) = Except.error e)
    ∧ (∃ e, Scanner.Scan fetch none = Except.error e) := by
  refine ⟨?_, ?_, ?_⟩
  · intro h
    refine ⟨cfg.rules.map (evaluateRule fetch cfg.vars), ?_, ?_, ?_⟩
    · unfold Scanner.Scan
      cases hcr : cfg.rules with
      | nil => exact absurd hcr h
      | cons r rest => simp [hcr]
    · simp
    · simp [List.map_map, Function.comp, evaluateRule_id]
  · intro h
    exact ⟨"no rules to scan", by simp [Scanner.Scan, h]⟩
  · exact ⟨"invalid scan configuration", rfl⟩

/-- Witness for C1 at a concrete configuration with one rule. -/
theorem scan_emits_one_result_per_rule_witness :
    ∃ rs, Scanner.Scan fetchOkEmpty
        (some { rules := [ruleSimple], vars := [], apiResourcePath := "" }) =
        Except.ok rs ∧
      rs.length = 1 ∧ rs.map CheckResult.id = ["r1"] :=
  (scan_emits_one_result_per_rule fetchOkEmpty
    { rules := [ruleSimple], vars := [], apiResourcePath := "" }).1 (by simp)

/-- C9: `SaveResults` followed by reading the serialized value back and
deserializing it reconstructs a result list structurally equal to the
input, for every result list; records are serialized under the field
names `id`, `status`, `metadata`, `warnings`, `errorMessage`. -/
theorem saveResults_roundtrip :
    (∀ results : List CheckResult, LoadResults (SaveResults results) = some results)
    ∧ (∀ r : CheckResult, jsonFieldNames (encodeCheckResult r) =
        ["id", "status", "metadata", "warnings", "errorMessage"]) := by
  constructor
  · intro results
    simp [SaveResults, LoadResults, decodeResultList_map]
  · intro r
    rfl

/-- C7: validating `undefinedVar == 1` with no declared inputs yields
exactly one issue, its type is undeclared-reference, and its message
references the identifier `undefinedVar`. -/
theorem validate_undeclared_single_issue :
    (ValidateCELExpressionSimple "undefinedVar == 1").map ValidationIssue.type =
      [ValidationErrorType.undeclaredRef]
    ∧ (ValidateCELExpressionSimple "undefinedVar == 1").all
        (fun i => strContains i.message "undefinedVar") = true := by
  exact ⟨rfl, rfl⟩

/-- C10: for the syntactically well-formed expression `1 + "string"`,
whose only defect is a type mismatch, the validator returns a non-empty
issue list whose first issue has type syntax, not type-error; the
type-error classification is reached only for messages carrying the
explicit type-checking marker, which CEL does not emit for this case. -/
theorem type_mismatch_classified_synErr :
    (ValidateCELExpressionSimple "1 + \"string\"").map ValidationIssue.type =
      [ValidationErrorType.synErr]
    ∧ (∀ msg expr : String,
        (categorizeCompilationError expr msg).type = ValidationErrorType.typeErr →
        strContains (lowerStr msg) "type check" = true) := by
  constructor
  · rfl
  · intro msg expr h
    unfold categorizeCompilationError at h
    simp only [] at h
    split_ifs at h with h1 h2 h3
    exact h3

/-- Witness for C10: the type-error classification fires on the message
carrying the explicit type-checking marker. -/
theorem type_mismatch_classified_synErr_witness :
    strContains (lowerStr "ERROR: type checking failed") "type check" = true :=
  type_mismatch_classified_synErr.2 "ERROR: type checking failed" "e" (by rfl)

/-- C8: the classification of the validator maps every compilation-error
message to exactly one issue type by pattern: the undeclared-reference
marker yields type undeclared-reference with the offending identifier
included in the issue message; a syntax marker yields type syntax; the
type-checking marker yields type-error; any other message yields general. -/
theorem categorize_classification (expr msg : String) :
    (strContains (lowerStr msg) "undeclared reference" = true →
      (categorizeCompilationError expr msg).type = ValidationErrorType.undeclaredRef
      ∧ strContains (categorizeCompilationError expr msg).message
          (extractIdent msg) = true)
    ∧ (strContains (lowerStr msg) "undeclared reference" = false →
        (strContains (lowerStr msg) "syntax error" = true ∨
          strContains (lowerStr msg) "no matching overload" = true) →
        (categorizeCompilationError expr msg).type = ValidationErrorType.synErr)
    ∧ (strContains (lowerStr msg) "undeclared reference" = false →
        strContains (lowerStr msg) "syntax error" = false →
        strContains (lowerStr msg) "no matching overload" = false →
        strContains (lowerStr msg) "type check" = true →
        (categorizeCompilationError expr msg).type = ValidationErrorType.typeErr)
    ∧ (strContains (lowerStr msg) "undeclared reference" = false →
        strContains (lowerStr msg) "syntax error" = false →
        strContains (lowerStr msg) "no matching overload" = false →
        strContains (lowerStr msg) "type check" = false →
        (categorizeCompilationError expr msg).type = ValidationErrorType.general) := by
  refine ⟨?_, ?_, ?_, ?_⟩
  · intro h1
    have he : categorizeCompilationError expr msg =
        { type := .undeclaredRef
          message := "Undeclared variable or reference: " ++ extractIdent msg
          details := msg
          location := extractLocation msg } := by
      unfold categorizeCompilationError
      simp [h1]
    rw [he]
    exact ⟨rfl, strContains_suffix "Undeclared variable or reference: " (extractIdent msg)⟩
  · intro h1 h2
    unfold categorizeCompilationError
    have h2b : (strContains (lowerStr msg) "syntax error" ||
        strContains (lowerStr msg) "no matching overload") = true := by
      rcases h2 with h | h <;> simp [h]
    simp [h1, h2b]
  · intro h1 h2 h3 h4
    unfold categorizeCompilationError
    simp [h1, h2, h3, h4]
  · intro h1 h2 h3 h4
    unfold categorizeCompilationError
    simp [h1, h2, h3, h4]

/-- Witness for C8: classification of the concrete undeclared-reference
message from the validator test suite. -/
theorem categorize_classification_witness :
    (categorizeCompilationError "test expression"
        "ERROR: <input>:1:1: undeclared reference to \x27unknownVar\x27").type =
      ValidationErrorType.undeclaredRef
    ∧ strContains
        (categorizeCompilationError "test expression"
          "ERROR: <input>:1:1: undeclared reference to \x27unknownVar\x27").message
        (extractIdent "ERROR: <input>:1:1: undeclared reference to \x27unknownVar\x27") =
      true :=
  (categorize_classification "test expression"
    "ERROR: <input>:1:1: undeclared reference to \x27unknownVar\x27").1 (by rfl)

/-- C5: fetcher resolution returns the custom-registered fetcher for a
kind whenever one exists — even when a built-in fetcher for the same kind
is also configured, since the conclusion holds for every dispatcher state;
with no custom registration it falls back to the built-in fetcher for the
kind; and it returns none when neither exists. -/
theorem getFetcherForType_precedence (c : CompositeFetcher) (t : InputType) :
    (∀ f, lookupCustom c.customFetchers t = some f →
      c.getFetcherForType t = some f)
    ∧ (lookupCustom c.customFetchers t = none →
      c.getFetcherForType t = c.builtinFetcher t)
    ∧ (lookupCustom c.customFetchers t = none → c.builtinFetcher t = none →
      c.getFetcherForType t = none) := by
  refine ⟨?_, ?_, ?_⟩
  · intro f h
    unfold CompositeFetcher.getFetcherForType
    rw [h]
  · intro h
    unfold CompositeFetcher.getFetcherForType
    rw [h]
  · intro h hb
    unfold CompositeFetcher.getFetcherForType
    rw [h, hb]

/-- Witness for C5: with a custom file fetcher registered and the built-in
filesystem fetcher also configured, resolution returns the custom one. -/
theorem getFetcherForType_precedence_witness :
    ((NewCompositeFetcher.SetFilesystemFetcher filesystemFetcherMock).RegisterCustomFetcher
        InputType.file fileFetcherMock).getFetcherForType InputType.file =
      some fileFetcherMock :=
  (getFetcherForType_precedence
    ((NewCompositeFetcher.SetFilesystemFetcher filesystemFetcherMock).RegisterCustomFetcher
      InputType.file fileFetcherMock) InputType.file).1 fileFetcherMock rfl

/-- C4: `FetchInputs` partitions the input list by the fetcher that
resolves the kind of each input, invokes each fetcher only with the inputs it
owns, and merges the binding maps returned by the fetchers into one flat map:
for two inputs of distinct kinds, the fetcher resolved for each kind is
called with exactly the input of that kind and the result is the merge of
the two returned binding maps. -/
theorem fetchInputs_partitions_and_merges
    (c : CompositeFetcher) (fa fb : InputFetcher) (ia ib : Input)
    (vars : List CelVariable) (ma mb : Bindings)
    (hne : ia.inputType ≠ ib.inputType)
    (hga : c.getFetcherForType ia.inputType = some fa)
    (hgb : c.getFetcherForType ib.inputType = some fb)
    (hfa : fa.fetchInputs [ia] vars = Except.ok ma)
    (hfb : fb.fetchInputs [ib] vars = Except.ok mb) :
    c.FetchInputs [ia, ib] vars = Except.ok (ma ++ mb) := by
  have hne2 : ¬ib.inputType = ia.inputType := fun h => hne h.symm
  have hdt : distinctTypes [ia, ib] = [ia.inputType, ib.inputType] := by
    unfold distinctTypes distinctTypesAux
    simp [distinctTypesAux, hne2]
  have hoa : inputsOfType ia.inputType [ia, ib] = [ia] := by
    unfold inputsOfType
    simp [hne2]
  have hob : inputsOfType ib.inputType [ia, ib] = [ib] := by
    unfold inputsOfType
    simp [hne]
  simp only [CompositeFetcher.FetchInputs, hdt, fetchGroups, hga, hgb, hoa, hob,
    hfa, hfb, List.append_nil]

/-- Witness for C4 (Scenario E): one input of each kind yields the merged
map containing the bindings of both fetchers. -/
theorem fetchInputs_partitions_and_merges_witness :
    dispatcherE.FetchInputs [inputConfigFile, inputNginxSystem] [] =
      Except.ok
        [("config", Value.vstr "file data"), ("nginx", Value.vstr "system data")] :=
  fetchInputs_partitions_and_merges dispatcherE fileFetcherMock systemFetcherMock
    inputConfigFile inputNginxSystem [] [("config", Value.vstr "file data")]
    [("nginx", Value.vstr "system data")] (by decide) rfl rfl rfl rfl

theorem strAppend_assoc (a b c : String) : a ++ b ++ c = a ++ (b ++ c) := by
  cases a with
  | mk da =>
    cases b with
    | mk db =>
      cases c with
      | mk dc =>
        show String.mk (da ++ db ++ dc) = String.mk (da ++ (db ++ dc))
        rw [List.append_assoc]

theorem fetchGroups_err (c : CompositeFetcher) (inputs : List Input)
    (vars : List CelVariable) (ts : List InputType)
    (hall : ∀ t ∈ ts, (c.getFetcherForType t).isSome = true)
    (herr : ∃ t ∈ ts, ∃ f e, c.getFetcherForType t = some f ∧
        f.fetchInputs (inputsOfType t inputs) vars = Except.error e) :
    (∃ e, fetchGroups c inputs vars ts = Except.error e ∧
      strContains e "failed to fetch inputs for type" = true)
    ∧ ∀ m, fetchGroups c inputs vars ts ≠ Except.ok m := by
  induction ts with
  | nil =>
    obtain ⟨t, ht, _⟩ := herr
    exact absurd ht (List.not_mem_nil t)
  | cons t ts ih =>
    obtain ⟨f, hf⟩ := Option.isSome_iff_exists.mp (hall t (List.mem_cons_self t ts))
    cases hcall : f.fetchInputs (inputsOfType t inputs) vars with
    | error e =>
      have hres : fetchGroups c inputs vars (t :: ts) =
          Except.error ("failed to fetch inputs for type " ++ t.typeName ++ ": " ++ e) := by
        simp only [fetchGroups, hf, hcall]
      have hmsg : ("failed to fetch inputs for type " ++ t.typeName ++ ": " ++ e) =
          "failed to fetch inputs for type" ++ (" " ++ (t.typeName ++ (": " ++ e))) := by
        rw [strAppend_assoc, strAppend_assoc,
          show ("failed to fetch inputs for type " : String) =
            "failed to fetch inputs for type" ++ " " from rfl,
          strAppend_assoc]
      constructor
      · refine ⟨_, hres, ?_⟩
        rw [hmsg]
        exact strContains_front "failed to fetch inputs for type" _
      · intro m
        rw [hres]
        exact fun h => Except.noConfusion h
    | ok m0 =>
      have herr2 : ∃ t2 ∈ ts, ∃ f2 e2, c.getFetcherForType t2 = some f2 ∧
          f2.fetchInputs (inputsOfType t2 inputs) vars = Except.error e2 := by
        obtain ⟨t0, ht0, f0, e0, hf0, hc0⟩ := herr
        rcases List.mem_cons.mp ht0 with h | h
        · subst h
          rw [hf] at hf0
          cases hf0
          rw [hcall] at hc0
          exact absurd hc0 (fun hx => Except.noConfusion hx)
        · exact ⟨t0, h, f0, e0, hf0, hc0⟩
      have ihr := ih (fun t2 ht2 => hall t2 (List.mem_cons_of_mem t ht2)) herr2
      obtain ⟨⟨e2, he2, hc2⟩, hnotok⟩ := ihr
      have hres : fetchGroups c inputs vars (t :: ts) = Except.error e2 := by
        simp only [fetchGroups, hf, hcall, he2]
      constructor
      · exact ⟨e2, hres, hc2⟩
      · intro m
        rw [hres]
        exact fun h => Except.noConfusion h

/-- C2: `FetchInputs` fails atomically: whenever every input kind resolves
to a fetcher and the `fetchInputs` call of some resolved fetcher on the
partition it owns returns an error, the whole call returns a wrapped
fetch error and no binding map — no partial bindings from fetchers that
succeeded are ever returned. -/
theorem fetchInputs_atomic_failure (c : CompositeFetcher) (inputs : List Input)
    (vars : List CelVariable)
    (hall : ∀ t ∈ distinctTypes inputs, (c.getFetcherForType t).isSome = true)
    (herr : ∃ t ∈ distinctTypes inputs, ∃ f e, c.getFetcherForType t = some f ∧
        f.fetchInputs (inputsOfType t inputs) vars = Except.error e) :
    (∃ e, c.FetchInputs inputs vars = Except.error e ∧
      strContains e "failed to fetch inputs for type" = true)
    ∧ ∀ m, c.FetchInputs inputs vars ≠ Except.ok m :=
  fetchGroups_err c inputs vars (distinctTypes inputs) hall herr

/-- Witness for C2: a dispatcher whose file fetcher fails yields an error
and no binding map for a file input. -/
theorem fetchInputs_atomic_failure_witness :
    (∃ e, (NewCompositeFetcher.RegisterCustomFetcher InputType.file
        failingFetcherMock).FetchInputs [inputConfigFile] [] = Except.error e ∧
      strContains e "failed to fetch inputs for type" = true)
    ∧ ∀ m, (NewCompositeFetcher.RegisterCustomFetcher InputType.file
        failingFetcherMock).FetchInputs [inputConfigFile] [] ≠ Except.ok m :=
  fetchInputs_atomic_failure
    (NewCompositeFetcher.RegisterCustomFetcher InputType.file failingFetcherMock)
    [inputConfigFile] []
    (by
      intro t ht
      have : t = InputType.file := by
        simpa [distinctTypes, distinctTypesAux, inputConfigFile] using ht
      subst this
      rfl)
    ⟨InputType.file,
      by simp [distinctTypes, distinctTypesAux, inputConfigFile],
      failingFetcherMock, "fetcher error", rfl, rfl⟩

theorem validateInputs_skip (c : CompositeFetcher) (pre rest : List Input)
    (hpre : ∀ j ∈ pre, (c.getFetcherForType j.inputType).isSome = true ∧
      j.spec.validateErr = none) :
    c.ValidateInputs (pre ++ rest) = c.ValidateInputs rest := by
  induction pre with
  | nil => rfl
  | cons j pre ih =>
    obtain ⟨h1, h2⟩ := hpre j (List.mem_cons_self j pre)
    obtain ⟨f, hf⟩ := Option.isSome_iff_exists.mp h1
    simp only [List.cons_append, CompositeFetcher.ValidateInputs, hf, h2]
    exact ih (fun j2 hj2 => hpre j2 (List.mem_cons_of_mem j hj2))

/-- C6: `ValidateInputs` returns an error containing `unsupported input
type` for the first input whose kind no fetcher resolves (all earlier
inputs passing), an error containing `invalid input spec` when the input
spec self-validation fails, and `FetchInputs` on a dispatcher with no
fetchers registered returns an error containing `no fetcher available`
for an http input. -/
theorem fetcher_unsupported_error_messages :
    (∀ (c : CompositeFetcher) (pre : List Input) (i0 : Input) (post : List Input),
      (∀ j ∈ pre, (c.getFetcherForType j.inputType).isSome = true ∧
        j.spec.validateErr = none) →
      c.getFetcherForType i0.inputType = none →
      ∃ e, c.ValidateInputs (pre ++ i0 :: post) = some e ∧
        strContains e "unsupported input type" = true)
    ∧ (∀ (c : CompositeFetcher) (pre : List Input) (i0 : Input) (post : List Input)
        (err : String),
      (∀ j ∈ pre, (c.getFetcherForType j.inputType).isSome = true ∧
        j.spec.validateErr = none) →
      (c.getFetcherForType i0.inputType).isSome = true →
      i0.spec.validateErr = some err →
      ∃ e, c.ValidateInputs (pre ++ i0 :: post) = some e ∧
        strContains e "invalid input spec" = true)
    ∧ (∀ (nm : String) (sp : InputSpec),
      ∃ e, NewCompositeFetcher.FetchInputs
          [{ name := nm, inputType := InputType.http, spec := sp }] [] =
          Except.error e ∧
        strContains e "no fetcher available" = true) := by
  refine ⟨?_, ?_, ?_⟩
  · intro c pre i0 post hpre h0
    rw [validateInputs_skip c pre _ hpre]
    refine ⟨"unsupported input type: " ++ i0.inputType.typeName, ?_, ?_⟩
    · simp only [CompositeFetcher.ValidateInputs, h0]
    · rw [show ("unsupported input type: " : String) =
          "unsupported input type" ++ ": " from rfl, strAppend_assoc]
      exact strContains_front "unsupported input type" _
  · intro c pre i0 post err hpre h1 h2
    obtain ⟨f, hf⟩ := Option.isSome_iff_exists.mp h1
    rw [validateInputs_skip c pre _ hpre]
    refine ⟨"invalid input spec for input " ++ i0.name ++ ": " ++ err, ?_, ?_⟩
    · simp only [CompositeFetcher.ValidateInputs, hf, h2]
    · rw [strAppend_assoc, strAppend_assoc,
        show ("invalid input spec for input " : String) =
          "invalid input spec" ++ " for input " from rfl, strAppend_assoc]
      exact strContains_front "invalid input spec" _
  · intro nm sp
    refine ⟨"no fetcher available for input type " ++ InputType.http.typeName, rfl, ?_⟩
    rw [show ("no fetcher available for input type " : String) =
        "no fetcher available" ++ " for input type " from rfl, strAppend_assoc]
    exact strContains_front "no fetcher available" _

/-- Witness for C6 (Scenario D): the three error messages at concrete
dispatchers and inputs. -/
theorem fetcher_unsupported_error_messages_witness :
    (∃ e, NewCompositeFetcher.ValidateInputs ([] ++ inputHttp :: []) = some e ∧
      strContains e "unsupported input type" = true)
    ∧ (∃ e, (NewCompositeFetcher.SetFilesystemFetcher
          filesystemFetcherMock).ValidateInputs ([] ++ inputBadSpec :: []) = some e ∧
        strContains e "invalid input spec" = true)
    ∧ (∃ e, NewCompositeFetcher.FetchInputs
        [{ name := "unsupported", inputType := InputType.http,
           spec := { validateErr := none } }] [] = Except.error e ∧
      strContains e "no fetcher available" = true) :=
  ⟨fetcher_unsupported_error_messages.1 NewCompositeFetcher [] inputHttp []
      (by intro j hj; exact absurd hj (List.not_mem_nil j)) rfl,
    (fetcher_unsupported_error_messages.2).1
      (NewCompositeFetcher.SetFilesystemFetcher filesystemFetcherMock) [] inputBadSpec []
      "invalid spec" (by intro j hj; exact absurd hj (List.not_mem_nil j)) rfl rfl,
    (fetcher_unsupported_error_messages.2).2 "unsupported" { validateErr := none }⟩

theorem evaluateRule_badRule (fetch : CelRule → Except String Bindings) (b : Bindings)
    (hf : fetch badRule = Except.ok b) :
    (evaluateRule fetch [] badRule).status = CheckResultStatus.error ∧
    (evaluateRule fetch [] badRule).warnings ≠ [] := by
  unfold evaluateRule
  rw [hf]
  simp only []
  split
  · next hcond => exact absurd hcond (by decide)
  · next => exact ⟨rfl, by decide⟩

/-- C3: a rule whose CEL expression fails to compile (declared input
`pods`, expression referencing the undeclared name `deployments`) never
makes `Scanner.Scan` itself return an error: with no caller variables and
a fetch that succeeds for that rule, the scan succeeds, still emits one
result per rule, and the result of the failing rule has status ERROR with a
non-empty warnings list. -/
theorem scan_compile_failure_rule_scoped_error
    (fetch : CelRule → Except String Bindings) (cfg : ScanConfig)
    (b : Bindings) (i : Nat) (hi : i < cfg.rules.length)
    (hr : cfg.rules.get ⟨i, hi⟩ = badRule)
    (hv : cfg.vars = [])
    (hf : fetch badRule = Except.ok b) :
    ∃ rs, Scanner.Scan fetch (some cfg) = Except.ok rs ∧
      rs.length = cfg.rules.length ∧
      ∃ hi2 : i < rs.length,
        (rs.get ⟨i, hi2⟩).status = CheckResultStatus.error ∧
        (rs.get ⟨i, hi2⟩).warnings ≠ [] := by
  refine ⟨cfg.rules.map (evaluateRule fetch cfg.vars), ?_, by simp, ?_⟩
  · unfold Scanner.Scan
    cases hcr : cfg.rules with
    | nil =>
      rw [hcr] at hi
      exact absurd hi (by simp)
    | cons r rest => simp [hcr]
  · have hi2 : i < (cfg.rules.map (evaluateRule fetch cfg.vars)).length := by
      simpa using hi
    refine ⟨hi2, ?_⟩
    have hget : (cfg.rules.map (evaluateRule fetch cfg.vars)).get ⟨i, hi2⟩ =
        evaluateRule fetch cfg.vars (cfg.rules.get ⟨i, hi⟩) := by
      simp [List.get_eq_getElem]
    rw [hget, hr, hv]
    exact evaluateRule_badRule fetch b hf

/-- Witness for C3: a two-rule scan containing the Scenario C rule, with
an always-succeeding fetcher. -/
theorem scan_compile_failure_rule_scoped_error_witness :
    ∃ rs, Scanner.Scan fetchOkEmpty
        (some { rules := [badRule, ruleSimple], vars := [], apiResourcePath := "" }) =
        Except.ok rs ∧
      rs.length = 2 ∧
      ∃ hi2 : 0 < rs.length,
        (rs.get ⟨0, hi2⟩).status = CheckResultStatus.error ∧
        (rs.get ⟨0, hi2⟩).warnings ≠ [] :=
  scan_compile_failure_rule_scoped_error fetchOkEmpty
    { rules := [badRule, ruleSimple], vars := [], apiResourcePath := "" }
    [] 0 (by simp) rfl rfl rfl
